import Mathlib

/-!
Verification of the concurrent test-orchestration scheduler in
`test_scripts/test_main.py` of the PypeIt development suite.

The embedding below is a shallow translation of the Python source:

* `PypeItTest` models one runnable test inside a test setup.  Its `run`
  method is external to `test_main.py` (it lives in `pypeit_tests.py`);
  per the spec's Task contract it returns a pass/fail outcome and
  populates `start_time`/`end_time`/`passed` as a side effect.
* `TestReport` models the reporter's counter state; `test_started`,
  `test_skipped` and `test_completed` translate the corresponding
  methods (counter/list updates; console output is elided).  Counters
  are `Int`, matching Python's unbounded integers.
* `runSetupTests` translates the per-setup loop of `thread_target`
  (the `passed` flag, skip-on-failure, reporter calls); it additionally
  records the emitted reporter events and the post-run test objects.
* `TestPriorityList` and its operations translate the priority-ledger
  class; file contents are modelled as the list of stripped lines.
* `heappush`/`heappop` translate CPython's `heapq` operations, which is
  what `queue.PriorityQueue` uses, with `qlt` translating
  `TestSetup.__lt__` (comparison on `priority` alone).
* A second copy of the worker loop, `thread_target_exc`, models the run
  contract as fallible (`Option Bool`, `none` = an unexpected exception
  escaping `run()`), to settle what `thread_target` does in that case:
  the source has no handler around `test.run()`.
-/

/-- Reporter events emitted while a chain's tasks are processed
(`test_started` / `test_completed` / `test_skipped` calls). -/
inductive RunEvent
  | started (descr : String)
  | completed (descr : String) (passed : Bool)
  | skipped (descr : String)
deriving DecidableEq, Repr

/-- One runnable test of a setup.  `runReturns` is the pass/fail outcome
its `run()` would produce; `t_start`/`t_end` are the timestamps `run()`
would observe.  `start_time`/`end_time`/`passed` are the mutable
attributes read by the reporter and the priority ledger (`none` models
Python `None`, their value before the test has run). -/
structure PypeItTest where
  descr : String
  runReturns : Bool
  t_start : Int
  t_end : Int
  start_time : Option Int := none
  end_time : Option Int := none
  passed : Option Bool := none
deriving DecidableEq, Repr

/-- Modelled from the spec: the Task contract (`pypeit_tests.py`, not part
of the sources here) exposes a blocking `run` returning a pass/fail
outcome and populating the test's start time, end time and result as a
side effect of running. -/
def PypeItTest.run (t : PypeItTest) : Bool × PypeItTest :=
  (t.runReturns,
   { t with start_time := some t.t_start, end_time := some t.t_end,
            passed := some t.runReturns })

/-- Counter state of `TestReport` (output formatting elided). -/
structure TestReport where
  num_tests : Int := 0
  num_passed : Int := 0
  num_failed : Int := 0
  num_skipped : Int := 0
  num_active : Int := 0
  failed_tests : List String := []
  skipped_tests : List String := []
deriving DecidableEq, Repr

/-- The reporter state at the start of a run. -/
def initialReport : TestReport := {}

/-- `TestReport.test_started`: `num_tests += 1; num_active += 1`. -/
def TestReport.test_started (r : TestReport) : TestReport :=
  { r with num_tests := r.num_tests + 1, num_active := r.num_active + 1 }

/-- `TestReport.test_skipped`: `num_skipped += 1`, record the test. -/
def TestReport.test_skipped (r : TestReport) (descr : String) : TestReport :=
  { r with num_skipped := r.num_skipped + 1,
           skipped_tests := r.skipped_tests ++ [descr] }

/-- `TestReport.test_completed`: `num_active -= 1`, then `num_passed` or
`num_failed` is bumped according to the truthiness of `test.passed`
(Python `None` and `False` both take the failed branch). -/
def TestReport.test_completed (r : TestReport) (descr : String)
    (passed : Option Bool) : TestReport :=
  if passed = some true then
    { r with num_active := r.num_active - 1, num_passed := r.num_passed + 1 }
  else
    { r with num_active := r.num_active - 1, num_failed := r.num_failed + 1,
             failed_tests := r.failed_tests ++ [descr] }

/-- Result of running one setup's test list inside `thread_target`:
final reporter state, final `passed` flag, the post-run test objects (in
place), and the reporter events emitted, in order. -/
structure SetupRunResult where
  report : TestReport
  passed : Bool
  tests : List PypeItTest
  events : List RunEvent
deriving Repr

/-- The per-setup loop of `thread_target`: `passed = True; for test in
test_setup.tests: if not passed: test_skipped else: test_started;
passed = test.run(); test_completed`. -/
def runSetupTests (r : TestReport) (passed : Bool) :
    List PypeItTest → SetupRunResult
  | [] => { report := r, passed := passed, tests := [], events := [] }
  | t :: ts =>
    if passed then
      let t2 := (PypeItTest.run t).2
      let res := (PypeItTest.run t).1
      let r2 := TestReport.test_completed (TestReport.test_started r) t2.descr t2.passed
      let rest := runSetupTests r2 res ts
      { report := rest.report, passed := rest.passed, tests := t2 :: rest.tests,
        events := RunEvent.started t.descr :: RunEvent.completed t.descr res :: rest.events }
    else
      let rest := runSetupTests (TestReport.test_skipped r t.descr) passed ts
      { report := rest.report, passed := rest.passed, tests := t :: rest.tests,
        events := RunEvent.skipped t.descr :: rest.events }

/-- A test setup (chain).  Only the scheduler-relevant attributes of the
Python `TestSetup` are kept: its key, its queue priority, its ordered
test list, and its missing-file diagnostics. -/
structure TestSetup where
  key : String
  priority : Nat := 0
  tests : List PypeItTest := []
  missing_files : List String := []
deriving DecidableEq, Repr

/-- One full chain execution by a worker: run the setup's tests. -/
def runTestSetup (r : TestReport) (s : TestSetup) : TestReport × TestSetup :=
  let res := runSetupTests r true s.tests
  (res.report, { s with tests := res.tests })

/-- Processing of a whole sequence of popped setups; the list order is
the order chains are taken off the queue.  Reporter counters are the
only shared state and every mutation is atomic under the reporter lock,
so an interleaved multi-worker run reaches the reporter state of some
sequential order of the chains. -/
def runAllSetups (r : TestReport) : List TestSetup → TestReport × List TestSetup
  | [] => (r, [])
  | s :: ss =>
    let p := runTestSetup r s
    let q := runAllSetups p.1 ss
    (q.1, p.2 :: q.2)

/-- The command-line options consulted by `main` when deciding whether
the priority file may be rewritten. -/
structure PArgs where
  tests : String
  instrument : Option String
  setup : Option String
  debug : Bool
deriving DecidableEq, Repr

/-- `main`, lines 633-637: `write_priorities` is set iff
`pargs.tests == "all"` with no instrument restriction, no setup
restriction and `debug` off. -/
def write_priorities (p : PArgs) : Bool :=
  p.tests == "all" && p.instrument.isNone && p.setup.isNone && !p.debug

/-- `main`, lines 826-833: the ledger recompute-and-persist step runs
iff `write_priorities` holds and `num_passed == num_tests`. -/
def prioritiesPersisted (p : PArgs) (r : TestReport) : Bool :=
  write_priorities p && (r.num_passed == r.num_tests)

/-- `main`'s accumulation `missing_files += setup.missing_files` over
every built setup (lines 766-780). -/
def collectMissing : List TestSetup → List String
  | [] => []
  | s :: ss => s.missing_files ++ collectMissing ss

/-- Outcome of `main`'s scheduling phase: the setups put on
`test_run_queue`, the reporter state once the queue has drained, and the
`ValueError` raised when files are missing (`none` = no abort). -/
structure MainOutcome where
  queued : List TestSetup
  report : TestReport
  aborted : Option String
deriving Repr

/-- `main`, lines 782-816: after building all setups, if any missing
files were collected a `ValueError` is raised; this happens before the
queue is populated (line 796) and before any worker thread is started
(line 806), so nothing is queued and no test runs.  Otherwise every
setup with a non-empty test list is queued and the workers drain the
queue. -/
def main_run (setups : List TestSetup) : MainOutcome :=
  let missing := collectMissing setups
  if missing.length > 0 then
    { queued := [], report := initialReport,
      aborted := some "Missing the following files" }
  else
    let queued := setups.filter (fun s => !s.tests.isEmpty)
    { queued := queued, report := (runAllSetups initialReport queued).1,
      aborted := none }

/-- Membership test of a Python dict modelled as an insertion-ordered
association list. -/
def dictMem (m : List (String × Nat)) (k : String) : Bool :=
  m.any (fun p => p.1 == k)

/-- `d[k] = v` on a Python dict: update in place if the key exists
(keeping its position), else append. -/
def dictInsert (m : List (String × Nat)) (k : String) (v : Nat) :
    List (String × Nat) :=
  if dictMem m k then
    m.map (fun p => if p.1 == k then (k, v) else p)
  else
    m ++ [(k, v)]

/-- `d[k]` lookup. -/
def dictLookup (m : List (String × Nat)) (k : String) : Option Nat :=
  (m.find? (fun p => p.1 == k)).map (fun p => p.2)

/-- Python `dict` equality: same keys with the same values, insertion
order ignored (used by `update_priorities`'s change check on maps whose
keys are unique). -/
def dictEqb (m1 m2 : List (String × Nat)) : Bool :=
  m1.all (fun p => dictLookup m2 p.1 == some p.2) &&
  m2.all (fun p => dictLookup m1 p.1 == some p.2)

/-- `TestPriorityList.__init__`'s read loop: each non-blank stripped
line becomes a key with the running count as its rank; blank lines do
not advance the count.  `lines` is the list of stripped file lines. -/
def loadMap : List String → Nat → List (String × Nat) → List (String × Nat)
  | [], _, m => m
  | l :: ls, count, m =>
    if l ≠ "" then loadMap ls (count + 1) (dictInsert m l count)
    else loadMap ls count m

/-- The priority ledger.  `_priority_map` is the insertion-ordered
key-to-rank dict; `_updated` is the dirty flag set by
`update_priorities`; `updated` models the distinct attribute that
`write` assigns (`self.updated = False`), absent (`none`) until then. -/
structure TestPriorityList where
  _priority_map : List (String × Nat)
  _updated : Bool
  updated : Option Bool := none
  _file : String := "test_priority_list"
deriving DecidableEq, Repr

/-- `TestPriorityList.__init__`: a missing file (`none`) yields an empty
map; otherwise the map is read off the file's lines. -/
def TestPriorityList.init (fileLines : Option (List String)) : TestPriorityList :=
  match fileLines with
  | none => { _priority_map := [], _updated := false }
  | some lines => { _priority_map := loadMap lines 0 [], _updated := false }

/-- Stable insertion step for sorting `(key, duration)` pairs ascending
by duration: a new element passes over every earlier element whose
duration is less than or equal to its own (matching Python's stable
`sorted(..., key=lambda x: x[1])`). -/
def insertAsc (x : String × Int) : List (String × Int) → List (String × Int)
  | [] => [x]
  | y :: ys => if y.2 ≤ x.2 then y :: insertAsc x ys else x :: y :: ys

/-- Stable ascending sort by duration (same output as Python's stable
`sorted` with `key=lambda x: x[1]`). -/
def sortAsc (l : List (String × Int)) : List (String × Int) :=
  l.foldl (fun acc x => insertAsc x acc) []

/-- Stable insertion step for sorting dict items descending by rank: a
new element passes over every earlier element whose rank is greater than
or equal to its own (matching Python's stable
`sorted(..., key=lambda x: x[1], reverse=True)`). -/
def insertDesc (x : String × Nat) : List (String × Nat) → List (String × Nat)
  | [] => [x]
  | y :: ys => if x.2 ≤ y.2 then y :: insertDesc x ys else x :: y :: ys

/-- Stable descending sort by rank (Python `sorted` with `reverse=True`). -/
def sortDesc (l : List (String × Nat)) : List (String × Nat) :=
  l.foldl (fun acc x => insertDesc x acc) []

/-- `test.end_time - test.start_time`: a `None` operand raises a
`TypeError`, modelled as `none`. -/
def testDurTerm (t : PypeItTest) : Option Int :=
  match t.end_time, t.start_time with
  | some e, some s => some (e - s)
  | _, _ => none

/-- `sum([test.end_time - test.start_time for test in setup.tests],
timedelta())`: fails (`none`) as soon as any term does. -/
def sumDurations : List PypeItTest → Option Int
  | [] => some 0
  | t :: ts =>
    match testDurTerm t, sumDurations ts with
    | some d, some rest => some (d + rest)
    | _, _ => none

/-- The `setup_durations` list built by `update_priorities`; `none` if
any setup's duration sum raises. -/
def setupDurations : List TestSetup → Option (List (String × Int))
  | [] => some []
  | s :: ss =>
    match sumDurations s.tests, setupDurations ss with
    | some d, some rest => some ((s.key, d) :: rest)
    | _, _ => none

/-- The rank-assignment loop of `update_priorities` and `__init__`-style
counting: `new_priority_map[setup_key] = count; count += 1` over the
sorted keys. -/
def buildRankMap : List String → Nat → List (String × Nat) → List (String × Nat)
  | [], _, m => m
  | k :: ks, count, m => buildRankMap ks (count + 1) (dictInsert m k count)

/-- `TestPriorityList.update_priorities` (lines 80-95): sum each setup's
test durations, sort ascending by duration, assign ranks 0..n-1 in that
order, and mark the ledger dirty iff the new dict differs from the old
one.  `none` models the `TypeError` raised when a test never ran. -/
def TestPriorityList.update_priorities (tpl : TestPriorityList)
    (setups : List TestSetup) : Option TestPriorityList :=
  match setupDurations setups with
  | none => none
  | some ds =>
    let new_map := buildRankMap ((sortAsc ds).map Prod.fst) 0 []
    some (if dictEqb new_map tpl._priority_map then tpl
          else { tpl with _priority_map := new_map, _updated := true })

/-- `TestPriorityList.write` (lines 97-104): if `_updated`, emit one key
per line, sorted by rank descending, then assign `self.updated = False`
(a fresh attribute; `_updated` itself is left untouched).  The second
component is the written file, `none` when nothing is written. -/
def TestPriorityList.write (tpl : TestPriorityList) :
    TestPriorityList × Option (List String) :=
  if tpl._updated then
    ({ tpl with updated := some false },
     some ((sortDesc tpl._priority_map).map Prod.fst))
  else
    (tpl, none)

/-- Keys paired with consecutive ranks starting at `n` — the canonical
shape of a freshly loaded or recomputed priority map. -/
def enumKeys : List String → Nat → List (String × Nat)
  | [], _ => []
  | k :: ks, n => (k, n) :: enumKeys ks (n + 1)

/-- A queue entry as `queue.PriorityQueue` sees a `TestSetup`: its
`priority` plus an identity tag to tell equal-priority setups apart. -/
structure QItem where
  priority : Nat
  id : Nat
deriving DecidableEq, Repr

instance : Inhabited QItem := ⟨⟨0, 0⟩⟩

/-- `TestSetup.__lt__` (lines 149-154): comparison on `priority` alone. -/
def qlt (a b : QItem) : Bool := a.priority < b.priority

/-- CPython `heapq._siftdown(heap, startpos, pos)` loop body with
`newitem` already read from `heap[pos]`.  The walk toward the root moves
`pos` to `(pos - 1) // 2` each iteration, so `pos` iterations of fuel
always suffice; the fuel-0 fallback is the loop-exit assignment. -/
def siftdownLoop (fuel : Nat) (heap : List QItem) (startpos pos : Nat)
    (newitem : QItem) : List QItem :=
  match fuel with
  | 0 => heap.set pos newitem
  | fuel + 1 =>
    if startpos < pos then
      let parentpos := (pos - 1) / 2
      let parent := heap.getD parentpos default
      if qlt newitem parent then
        siftdownLoop fuel (heap.set pos parent) startpos parentpos newitem
      else
        heap.set pos newitem
    else
      heap.set pos newitem

/-- The `heap[pos] = newitem; _siftdown(heap, startpos, pos)` exit of
`heapq._siftup`. -/
def siftupExit (heap : List QItem) (startpos pos : Nat) (newitem : QItem) :
    List QItem :=
  siftdownLoop pos (heap.set pos newitem) startpos pos newitem

/-- CPython `heapq._siftup(heap, pos)` loop: bubble the smaller child up
until a leaf is reached, then place `newitem` and sift it down.  Each
iteration moves `pos` to a child (`2*pos+1` or `2*pos+2`) below
`endpos`, so `endpos` iterations of fuel always suffice. -/
def siftupLoop (fuel : Nat) (heap : List QItem) (startpos pos endpos : Nat)
    (newitem : QItem) : List QItem :=
  match fuel with
  | 0 => siftupExit heap startpos pos newitem
  | fuel + 1 =>
    if 2 * pos + 1 < endpos then
      let childpos :=
        if decide (2 * pos + 2 < endpos) &&
           !(qlt (heap.getD (2 * pos + 1) default) (heap.getD (2 * pos + 2) default))
        then 2 * pos + 2
        else 2 * pos + 1
      siftupLoop fuel (heap.set pos (heap.getD childpos default)) startpos
        childpos endpos newitem
    else
      siftupExit heap startpos pos newitem

/-- `heapq.heappush`: append, then sift the new item down toward the
root from position `len - 1`. -/
def heappush (heap : List QItem) (item : QItem) : List QItem :=
  let h := heap ++ [item]
  siftdownLoop (h.length - 1) h 0 (h.length - 1) item

/-- `heapq.heappop`: pop the last element; if the heap is non-empty,
return the root, move the last element there and sift it up.
`queue.PriorityQueue.get` never calls it on an empty heap (`none`). -/
def heappop (heap : List QItem) : Option QItem × List QItem :=
  match heap.getLast? with
  | none => (none, heap)
  | some lastelt =>
    let rest := heap.dropLast
    match rest with
    | [] => (some lastelt, [])
    | r0 :: _ =>
      let rest2 := rest.set 0 lastelt
      (some r0, siftupLoop rest2.length rest2 0 0 rest2.length lastelt)

/-- A sequence of `put` calls on the queue. -/
def pushAll (heap : List QItem) : List QItem → List QItem
  | [] => heap
  | x :: xs => pushAll (heappush heap x) xs

/-- Draining the queue by repeated `get` calls. -/
def popAll (heap : List QItem) (fuel : Nat) : List QItem :=
  match fuel with
  | 0 => []
  | fuel + 1 =>
    match heappop heap with
    | (none, _) => []
    | (some x, h2) => x :: popAll h2 fuel

/-- A test as seen through a fallible run contract: `runOutcome = none`
models an unexpected exception escaping `run()` instead of a returned
pass/fail outcome. -/
structure RTest where
  descr : String
  runOutcome : Option Bool
deriving DecidableEq, Repr

/-- A setup whose tests carry the fallible run contract. -/
structure RSetup where
  key : String
  tests : List RTest
deriving DecidableEq, Repr

/-- The per-setup loop of `thread_target` under the fallible run
contract.  The source wraps `test.run()` in no handler (the only
`except` in the loop is for `queue.Empty` around `get`), so an exception
from `run()` propagates immediately: `test_completed` is not called for
that test and no later statement of the loop body executes.  Returns the
reporter events emitted before the loop ended and `some flag` on normal
completion, `none` when an exception escaped. -/
def runSetupExc (passed : Bool) : List RTest → List RunEvent × Option Bool
  | [] => ([], some passed)
  | t :: ts =>
    if passed then
      match t.runOutcome with
      | none => ([RunEvent.started t.descr], none)
      | some res =>
        let rest := runSetupExc res ts
        (RunEvent.started t.descr :: RunEvent.completed t.descr res :: rest.1,
         rest.2)
    else
      let rest := runSetupExc passed ts
      (RunEvent.skipped t.descr :: rest.1, rest.2)

/-- Observable outcome of one worker thread: the reporter events it
emitted, how many chains it acknowledged with `task_done`, and whether
it was terminated by an exception that escaped the loop. -/
structure WorkerRun where
  events : List RunEvent
  task_done_count : Nat
  uncaught : Bool
deriving DecidableEq, Repr

/-- `thread_target` under the fallible run contract, over the sequence
of setups this worker pops.  On normal completion of a setup the worker
calls `task_done` and keeps looping; an exception escaping `run()`
propagates out of `thread_target`, so `task_done` is not called for
that chain and the thread terminates, leaving later chains unprocessed
by this worker. -/
def thread_target_exc : List RSetup → WorkerRun
  | [] => { events := [], task_done_count := 0, uncaught := false }
  | s :: ss =>
    let res := runSetupExc true s.tests
    match res.2 with
    | none => { events := res.1, task_done_count := 0, uncaught := true }
    | some _ =>
      let rest := thread_target_exc ss
      { events := res.1 ++ rest.events,
        task_done_count := rest.task_done_count + 1,
        uncaught := rest.uncaught }

/-- Replay a list of reporter events against a report state, applying
the same reporter method each event stands for. -/
def replayEvents (r : TestReport) : List RunEvent → TestReport
  | [] => r
  | RunEvent.started _ :: evs => replayEvents r.test_started evs
  | RunEvent.completed d p :: evs =>
    replayEvents (r.test_completed d (some p)) evs
  | RunEvent.skipped d :: evs => replayEvents (r.test_skipped d) evs

/-- A passing test fixture. -/
def tPass1 : PypeItTest := { descr := "p1", runReturns := true, t_start := 0, t_end := 1 }

/-- A failing test fixture. -/
def tFail1 : PypeItTest := { descr := "f1", runReturns := false, t_start := 0, t_end := 1 }

/-- A test placed after a failing one; its own outcome would be a pass
but it must never be run. -/
def tAfter1 : PypeItTest := { descr := "a1", runReturns := true, t_start := 0, t_end := 1 }

/-- A two-test setup whose first test fails, so its second is skipped. -/
def setupFailSkip : TestSetup := { key := "s", tests := [tFail1, tAfter1] }

/-- A one-test passing setup used to exercise a fully green run. -/
def setupGreen : TestSetup := { key := "g", tests := [tPass1] }

/-- A setup containing a test that never ran (both timestamps `None`). -/
def setupNeverRan : TestSetup :=
  { key := "nr",
    tests := [{ descr := "n1", runReturns := true, t_start := 0, t_end := 1 }] }

/-- A setup already carrying observed timestamps on its test (duration
`e - s`). -/
def timedSetup (k : String) (s e : Int) : TestSetup :=
  { key := k,
    tests := [{ descr := k ++ "/t", runReturns := true, t_start := s, t_end := e,
                start_time := some s, end_time := some e, passed := some true }] }

/-- Five chains with observed total durations A:10, B:1, C:1, D:1, E:1. -/
def setupsDurations : List TestSetup :=
  [timedSetup "A" 0 10, timedSetup "B" 0 1, timedSetup "C" 0 1,
   timedSetup "D" 0 1, timedSetup "E" 0 1]

/-- A ledger loaded from a missing source: empty map, clean flag. -/
def tplEmpty : TestPriorityList := TestPriorityList.init none

/-- A dirty two-entry ledger mapping A to rank 0 and B to rank 1. -/
def tplAB : TestPriorityList :=
  { _priority_map := [("A", 0), ("B", 1)], _updated := true }

/-- Four equal-rank queue entries, pushed in id order 0,1,2,3. -/
def qItems : List QItem := [⟨5, 0⟩, ⟨5, 1⟩, ⟨5, 2⟩, ⟨5, 3⟩]

/-- A chain whose only test's `run()` raises an unexpected exception. -/
def rSetupRaises : RSetup := { key := "s1", tests := [{ descr := "t1", runOutcome := none }] }

/-- A healthy chain queued after the raising one. -/
def rSetupAfter : RSetup := { key := "s2", tests := [{ descr := "t2", runOutcome := some true }] }

/-- A chain whose test's `run()` returns failure without raising. -/
def rSetupFails : RSetup := { key := "s3", tests := [{ descr := "t3", runOutcome := some false }] }

/-- A setup that could not be fully built: one missing-file diagnostic. -/
def setupMissing : TestSetup :=
  { key := "m", tests := [tPass1], missing_files := ["raw/file.fits not found"] }

/-- Inserting an element whose rank is above everything accumulated so
far puts it in front (descending insertion step). -/
theorem insertDesc_front (x : String × Nat) (acc : List (String × Nat))
    (h : ∀ p ∈ acc, p.2 < x.2) : insertDesc x acc = x :: acc := by
  cases acc with
  | nil => rfl
  | cons y ys =>
    have hy : y.2 < x.2 := h y (by simp)
    simp only [insertDesc]
    have : ¬ x.2 ≤ y.2 := by omega
    simp [this]

/-- Folding the descending insertion over keys enumerated with strictly
increasing ranks reverses them on top of the accumulator. -/
theorem foldl_insertDesc_enum (ks : List String) :
    ∀ (n : Nat) (acc : List (String × Nat)), (∀ p ∈ acc, p.2 < n) →
      List.foldl (fun a x => insertDesc x a) acc (enumKeys ks n) =
        (enumKeys ks n).reverse ++ acc := by
  induction ks with
  | nil => intro n acc _; simp [enumKeys]
  | cons k ks ih =>
    intro n acc h
    simp only [enumKeys, List.foldl_cons]
    rw [insertDesc_front (k, n) acc h]
    rw [ih (n + 1) ((k, n) :: acc) ?_]
    · simp [enumKeys]
    · intro p hp
      rcases List.mem_cons.mp hp with rfl | hp
      · simp
      · exact Nat.lt_succ_of_lt (h p hp)

/-- Sorting a rank-enumerated map descending by rank reverses it. -/
theorem sortDesc_enum (ks : List String) :
    sortDesc (enumKeys ks 0) = (enumKeys ks 0).reverse := by
  unfold sortDesc
  rw [foldl_insertDesc_enum ks 0 [] (by simp)]
  simp

/-- The keys of a rank enumeration are the enumerated keys. -/
theorem enumKeys_map_fst (ks : List String) :
    ∀ n, (enumKeys ks n).map Prod.fst = ks := by
  induction ks with
  | nil => intro n; simp [enumKeys]
  | cons k ks ih => intro n; simp [enumKeys, ih]

/-- Loading distinct non-blank keys appends them to the accumulated map
with consecutive ranks. -/
theorem loadMap_fresh (ks : List String) :
    ∀ (n : Nat) (m : List (String × Nat)), ks.Nodup → (∀ k ∈ ks, k ≠ "") →
      (∀ k ∈ ks, ∀ p ∈ m, p.1 ≠ k) →
      loadMap ks n m = m ++ enumKeys ks n := by
  induction ks with
  | nil => intro n m _ _ _; simp [loadMap, enumKeys]
  | cons k ks ih =>
    intro n m hnd hne hfresh
    have hk : k ≠ "" := hne k (by simp)
    have hmem : dictMem m k = false := by
      simp only [dictMem, List.any_eq_false]
      intro p hp
      simpa using hfresh k (by simp) p hp
    simp only [loadMap, if_pos hk, dictInsert, hmem, Bool.false_eq_true,
      if_false]
    rw [ih (n + 1) (m ++ [(k, n)]) (List.nodup_cons.mp hnd).2
      (fun k' hk' => hne k' (by simp [hk']))
      ?_]
    · simp [enumKeys]
    · intro k' hk' p hp
      rcases List.mem_append.mp hp with hp | hp
      · exact hfresh k' (by simp [hk']) p hp
      · have : p = (k, n) := by simpa using hp
        subst this
        intro hEq
        apply (List.nodup_cons.mp hnd).1
        rw [show k = k' from hEq]
        exact hk'

/-- Claim C5 counterexample: for the ledger mapping A to rank 0 and B to
rank 1, `write` emits the keys in reverse rank order, so reloading the
written file yields B at rank 0 and A at rank 1 — not the identical
mapping (neither structurally nor by Python dict equality). -/
theorem c5_roundtrip_cex :
    (TestPriorityList.write tplAB).2 = some ["B", "A"] ∧
    loadMap ["B", "A"] 0 [] = [("B", 0), ("A", 1)] ∧
    dictEqb [("B", 0), ("A", 1)] [("A", 0), ("B", 1)] = false ∧
    [("B", 0), ("A", 1)] ≠ tplAB._priority_map := by decide

/-- Claim C5 amended: persist followed by load reverses the ranking.
For a ledger whose map assigns ranks 0..n-1 to distinct non-blank keys
in insertion order, `write` emits the keys in reverse order and a
subsequent load assigns the key that had rank r the rank n-1-r; the
round trip reproduces the original mapping only when it has at most one
entry. -/
theorem c5_roundtrip_amended (ks : List String) (hnd : ks.Nodup)
    (hne : "" ∉ ks) :
    (TestPriorityList.write { _priority_map := enumKeys ks 0, _updated := true }).2
        = some ks.reverse ∧
    loadMap ks.reverse 0 [] = enumKeys ks.reverse 0 := by
  constructor
  · simp [TestPriorityList.write, sortDesc_enum, List.map_reverse,
      enumKeys_map_fst]
  · rw [loadMap_fresh ks.reverse 0 [] (List.nodup_reverse.mpr hnd)
      (fun k hk => by
        intro hEq
        exact hne (hEq ▸ List.mem_reverse.mp hk))
      (fun _ _ p hp => absurd hp (List.not_mem_nil p))]
    simp

/-- Witness for the amended C5 round-trip theorem at the concrete
two-key ledger. -/
theorem c5_roundtrip_amended_witness :
    (["A", "B"].Nodup ∧ "" ∉ ["A", "B"]) ∧
    ((TestPriorityList.write { _priority_map := enumKeys ["A", "B"] 0, _updated := true }).2
        = some ["A", "B"].reverse ∧
      loadMap ["A", "B"].reverse 0 [] = enumKeys ["A", "B"].reverse 0) :=
  ⟨by decide, c5_roundtrip_amended ["A", "B"] (by decide) (by decide)⟩

/-- Claim C6: with the five observed durations A:10, B:1, C:1, D:1, E:1
and a ledger from a missing source, one `update_priorities` followed by
`write` and a reload of the written file assigns chain A rank 0. -/
theorem c6_longest_duration_first :
    (match TestPriorityList.update_priorities tplEmpty setupsDurations with
     | some tpl1 =>
       (match (TestPriorityList.write tpl1).2 with
        | some lines => dictLookup (loadMap lines 0 []) "A"
        | none => none)
     | none => none) = some 0 := by decide

/-- Claim C9: `write` on a dirty ledger leaves `_updated` true (the
clearing assignment targets the distinct attribute `updated`), so a
second `write` with the unchanged mapping writes the same file again. -/
theorem c9_dirty_flag_not_cleared (tpl : TestPriorityList)
    (h : tpl._updated = true) :
    ((TestPriorityList.write tpl).1)._updated = true ∧
    ((TestPriorityList.write tpl).2).isSome = true ∧
    (TestPriorityList.write (TestPriorityList.write tpl).1).2 =
      (TestPriorityList.write tpl).2 := by
  simp [TestPriorityList.write, h]

/-- Witness for C9 at the concrete dirty two-entry ledger. -/
theorem c9_dirty_flag_not_cleared_witness :
    tplAB._updated = true ∧
    (((TestPriorityList.write tplAB).1)._updated = true ∧
      ((TestPriorityList.write tplAB).2).isSome = true ∧
      (TestPriorityList.write (TestPriorityList.write tplAB).1).2 =
        (TestPriorityList.write tplAB).2) :=
  ⟨by decide, c9_dirty_flag_not_cleared tplAB (by decide)⟩

/-- Claim C4 counterexample: four equal-rank chains pushed in id order
0,1,2,3 are popped in heap order 0,2,1,3 — not insertion order — and
`TestSetup.__lt__` makes distinct equal-priority items incomparable in
both directions, so the ordering relation is not total and no
sequence-number tiebreaker exists to break the tie. -/
theorem c4_fifo_cex :
    popAll (pushAll [] qItems) 4 ≠ qItems ∧
    qlt ⟨5, 0⟩ ⟨5, 1⟩ = false ∧ qlt ⟨5, 1⟩ ⟨5, 0⟩ = false := by decide

/-- Claim C4 amended: equal-rank chains come back in binary-heap order,
not insertion order — for pushes 0,1,2,3 the pops are 0,2,1,3 — though
the popped chains are still exactly a permutation of the pushed ones. -/
theorem c4_heap_order_amended :
    popAll (pushAll [] qItems) 4 = [⟨5, 0⟩, ⟨5, 2⟩, ⟨5, 1⟩, ⟨5, 3⟩] ∧
    (popAll (pushAll [] qItems) 4).Perm qItems := by
  constructor
  · decide
  · decide

/-- Claim C3 counterexample: a single-worker run of one chain whose
first test fails and second is skipped drains with `num_passed = 0`,
`num_failed = 1`, `num_skipped = 1` but `num_tests = 1`, so
`passed + failed + skipped ≠ total`. -/
theorem c3_counters_cex :
    ¬((runAllSetups initialReport [setupFailSkip]).1.num_passed +
        (runAllSetups initialReport [setupFailSkip]).1.num_failed +
        (runAllSetups initialReport [setupFailSkip]).1.num_skipped =
      (runAllSetups initialReport [setupFailSkip]).1.num_tests) := by decide

/-- Unfolding equation for the per-setup loop when the `passed` flag is
still true: the head test runs and the loop continues with its
outcome. -/
theorem runSetup_cons_true (r : TestReport) (t : PypeItTest)
    (ts : List PypeItTest) :
    runSetupTests r true (t :: ts) =
      { report := (runSetupTests
          (TestReport.test_completed (TestReport.test_started r) t.descr
            (some t.runReturns)) t.runReturns ts).report,
        passed := (runSetupTests
          (TestReport.test_completed (TestReport.test_started r) t.descr
            (some t.runReturns)) t.runReturns ts).passed,
        tests := (PypeItTest.run t).2 :: (runSetupTests
          (TestReport.test_completed (TestReport.test_started r) t.descr
            (some t.runReturns)) t.runReturns ts).tests,
        events := RunEvent.started t.descr ::
          RunEvent.completed t.descr t.runReturns :: (runSetupTests
            (TestReport.test_completed (TestReport.test_started r) t.descr
              (some t.runReturns)) t.runReturns ts).events } := rfl

/-- Unfolding equation for the per-setup loop once the `passed` flag is
false: the head test is skipped untouched. -/
theorem runSetup_cons_false (r : TestReport) (t : PypeItTest)
    (ts : List PypeItTest) :
    runSetupTests r false (t :: ts) =
      { report := (runSetupTests (r.test_skipped t.descr) false ts).report,
        passed := (runSetupTests (r.test_skipped t.descr) false ts).passed,
        tests := t :: (runSetupTests (r.test_skipped t.descr) false ts).tests,
        events := RunEvent.skipped t.descr ::
          (runSetupTests (r.test_skipped t.descr) false ts).events } := rfl

/-- Once the flag is false, the loop leaves every remaining test object
untouched, never flips the flag back, emits exactly one skipped event
per remaining test, and the reporter's tests/passed/failed/active
counters are unchanged. -/
theorem runSetup_false_parts (ts : List PypeItTest) :
    ∀ r : TestReport,
      (runSetupTests r false ts).tests = ts ∧
      (runSetupTests r false ts).passed = false ∧
      (runSetupTests r false ts).events =
        ts.map (fun t => RunEvent.skipped t.descr) ∧
      (runSetupTests r false ts).report.num_failed = r.num_failed ∧
      (runSetupTests r false ts).report.num_passed = r.num_passed ∧
      (runSetupTests r false ts).report.num_tests = r.num_tests ∧
      (runSetupTests r false ts).report.num_active = r.num_active := by
  induction ts with
  | nil => intro r; simp [runSetupTests]
  | cons t ts ih =>
    intro r
    have h := ih (r.test_skipped t.descr)
    rw [runSetup_cons_false]
    simpa [TestReport.test_skipped] using h

/-- Reporter invariants across one setup's loop, for either flag: the
active count is restored, the passed+failed surplus over the started
count is preserved, and the failed count never decreases. -/
theorem runSetup_report_inv (ts : List PypeItTest) :
    ∀ (r : TestReport) (p : Bool),
      (runSetupTests r p ts).report.num_active = r.num_active ∧
      (runSetupTests r p ts).report.num_passed +
          (runSetupTests r p ts).report.num_failed -
          (runSetupTests r p ts).report.num_tests =
        r.num_passed + r.num_failed - r.num_tests ∧
      r.num_failed ≤ (runSetupTests r p ts).report.num_failed := by
  induction ts with
  | nil => intro r p; simp [runSetupTests]
  | cons t ts ih =>
    intro r p
    cases p with
    | false =>
      obtain ⟨_, _, _, h4, h5, h6, h7⟩ := runSetup_false_parts (t :: ts) r
      omega
    | true =>
      rw [runSetup_cons_true]
      dsimp only
      cases hrt : t.runReturns with
      | true =>
        set r2 := TestReport.test_completed (TestReport.test_started r)
          t.descr (some true) with hr2
        obtain ⟨h1, h2, h3⟩ := ih r2 true
        have ha : r2.num_active = r.num_active := by
          simp [hr2, TestReport.test_completed, TestReport.test_started]
        have hp : r2.num_passed = r.num_passed + 1 := by
          simp [hr2, TestReport.test_completed, TestReport.test_started]
        have hf : r2.num_failed = r.num_failed := by
          simp [hr2, TestReport.test_completed, TestReport.test_started]
        have ht : r2.num_tests = r.num_tests + 1 := by
          simp [hr2, TestReport.test_completed, TestReport.test_started]
        exact ⟨by omega, by omega, by omega⟩
      | false =>
        set r2 := TestReport.test_completed (TestReport.test_started r)
          t.descr (some false) with hr2
        obtain ⟨h1, h2, h3⟩ := ih r2 false
        have ha : r2.num_active = r.num_active := by
          simp [hr2, TestReport.test_completed, TestReport.test_started]
        have hp : r2.num_passed = r.num_passed := by
          simp [hr2, TestReport.test_completed, TestReport.test_started]
        have hf : r2.num_failed = r.num_failed + 1 := by
          simp [hr2, TestReport.test_completed, TestReport.test_started]
        have ht : r2.num_tests = r.num_tests + 1 := by
          simp [hr2, TestReport.test_completed, TestReport.test_started]
        exact ⟨by omega, by omega, by omega⟩



/-- Reporter invariants across a whole run: active restored,
passed+failed surplus over started preserved, failed nondecreasing. -/
theorem runAll_report_inv (ss : List TestSetup) :
    ∀ r : TestReport,
      (runAllSetups r ss).1.num_active = r.num_active ∧
      (runAllSetups r ss).1.num_passed + (runAllSetups r ss).1.num_failed -
          (runAllSetups r ss).1.num_tests =
        r.num_passed + r.num_failed - r.num_tests ∧
      r.num_failed ≤ (runAllSetups r ss).1.num_failed := by
  induction ss with
  | nil => intro r; simp [runAllSetups]
  | cons s ss ih =>
    intro r
    simp only [runAllSetups, runTestSetup]
    obtain ⟨h1, h2, h3⟩ := runSetup_report_inv s.tests r true
    obtain ⟨g1, g2, g3⟩ := ih (runSetupTests r true s.tests).report
    exact ⟨by omega, by omega, by omega⟩

/-- Claim C3 amended: after any run drains, `num_active = 0` and
`num_passed + num_failed = num_tests`; consequently
`num_passed + num_failed + num_skipped = num_tests + num_skipped`, which
coincides with the claimed `passed + failed + skipped = total` exactly
when no test was skipped (`test_skipped` does not increment
`num_tests`). -/
theorem c3_counters_amended (ss : List TestSetup) :
    (runAllSetups initialReport ss).1.num_active = 0 ∧
    (runAllSetups initialReport ss).1.num_passed +
        (runAllSetups initialReport ss).1.num_failed =
      (runAllSetups initialReport ss).1.num_tests ∧
    (runAllSetups initialReport ss).1.num_passed +
        (runAllSetups initialReport ss).1.num_failed +
        (runAllSetups initialReport ss).1.num_skipped =
      (runAllSetups initialReport ss).1.num_tests +
        (runAllSetups initialReport ss).1.num_skipped := by
  obtain ⟨h1, h2, h3⟩ := runAll_report_inv ss initialReport
  have h0a : initialReport.num_active = 0 := rfl
  have h0p : initialReport.num_passed = 0 := rfl
  have h0f : initialReport.num_failed = 0 := rfl
  have h0t : initialReport.num_tests = 0 := rfl
  refine ⟨by omega, by omega, by omega⟩

/-- With the flag still true, the setup loop leaves the failed count
unchanged exactly when every test in the setup passes. -/
theorem runSetup_failed_iff (ts : List PypeItTest) :
    ∀ r : TestReport,
      ((runSetupTests r true ts).report.num_failed = r.num_failed ↔
        ∀ t ∈ ts, t.runReturns = true) := by
  induction ts with
  | nil => intro r; simp [runSetupTests]
  | cons t ts ih =>
    intro r
    rw [runSetup_cons_true]
    dsimp only
    cases hrt : t.runReturns with
    | true =>
      set r2 := TestReport.test_completed (TestReport.test_started r)
        t.descr (some true) with hr2
      have hf : r2.num_failed = r.num_failed := by
        simp [hr2, TestReport.test_completed, TestReport.test_started]
      rw [← hf, ih r2]
      simp [hrt]
    | false =>
      set r2 := TestReport.test_completed (TestReport.test_started r)
        t.descr (some false) with hr2
      have hf : r2.num_failed = r.num_failed + 1 := by
        simp [hr2, TestReport.test_completed, TestReport.test_started]
      obtain ⟨_, _, _, h4, _, _, _⟩ := runSetup_false_parts ts r2
      rw [h4, hf]
      constructor
      · intro h; omega
      · intro h
        have := h t (by simp)
        rw [this] at hrt
        cases hrt

/-- The failed count never decreases across a whole run. -/
theorem runAll_failed_ge (ss : List TestSetup) :
    ∀ r : TestReport, r.num_failed ≤ (runAllSetups r ss).1.num_failed :=
  fun r => (runAll_report_inv ss r).2.2

/-- A whole run leaves the failed count unchanged exactly when every
test of every setup passes. -/
theorem runAll_failed_iff (ss : List TestSetup) :
    ∀ r : TestReport,
      ((runAllSetups r ss).1.num_failed = r.num_failed ↔
        ∀ s ∈ ss, ∀ t ∈ s.tests, t.runReturns = true) := by
  induction ss with
  | nil => intro r; simp [runAllSetups]
  | cons s ss ih =>
    intro r
    simp only [runAllSetups, runTestSetup]
    have hge1 : r.num_failed ≤ (runSetupTests r true s.tests).report.num_failed :=
      (runSetup_report_inv s.tests r true).2.2
    have hge2 := runAll_failed_ge ss (runSetupTests r true s.tests).report
    constructor
    · intro h
      have heq1 : (runSetupTests r true s.tests).report.num_failed = r.num_failed := by
        omega
      have heq2 : (runAllSetups (runSetupTests r true s.tests).report ss).1.num_failed
          = (runSetupTests r true s.tests).report.num_failed := by omega
      intro s' hs'
      rcases List.mem_cons.mp hs' with rfl | hs'
      · exact ((runSetup_failed_iff s'.tests r).mp heq1)
      · exact ((ih (runSetupTests r true s.tests).report).mp heq2) s' hs'
    · intro h
      have heq1 : (runSetupTests r true s.tests).report.num_failed = r.num_failed :=
        (runSetup_failed_iff s.tests r).mpr (h s (by simp))
      have heq2 : (runAllSetups (runSetupTests r true s.tests).report ss).1.num_failed
          = (runSetupTests r true s.tests).report.num_failed :=
        (ih (runSetupTests r true s.tests).report).mpr
          (fun s' hs' => h s' (by simp [hs']))
      omega

/-- For a run started from a fresh reporter, `num_passed = num_tests`
holds exactly when every test of every setup passes. -/
theorem runAll_passed_iff (ss : List TestSetup) :
    ((runAllSetups initialReport ss).1.num_passed =
        (runAllSetups initialReport ss).1.num_tests ↔
      ∀ s ∈ ss, ∀ t ∈ s.tests, t.runReturns = true) := by
  obtain ⟨_, h2, _⟩ := runAll_report_inv ss initialReport
  have hf := runAll_failed_iff ss initialReport
  have h0p : initialReport.num_passed = 0 := rfl
  have h0f : initialReport.num_failed = 0 := rfl
  have h0t : initialReport.num_tests = 0 := rfl
  rw [← hf]
  constructor <;> intro h <;> omega

/-- Claim C7: the ledger recompute-and-persist step runs iff the run was
the full unfiltered chain set (`tests = "all"` with no instrument or
setup restriction and debug off) and every executed test passed, which
over a drained run is equivalent to every test of every scheduled chain
passing. -/
theorem c7_persist_condition (p : PArgs) (ss : List TestSetup) :
    prioritiesPersisted p (runAllSetups initialReport ss).1 = true ↔
      (p.tests = "all" ∧ p.instrument = none ∧ p.setup = none ∧
        p.debug = false ∧ ∀ s ∈ ss, ∀ t ∈ s.tests, t.runReturns = true) := by
  have hp := runAll_passed_iff ss
  simp only [prioritiesPersisted, write_priorities, Bool.and_eq_true,
    beq_iff_eq, Option.isNone_iff_eq_none, Bool.not_eq_true', hp]
  tauto

/-- Running a prefix of all-passing tests maps each of them through
`run` and continues on the remainder with the flag still true (for some
intermediate reporter state). -/
theorem runSetup_prefix (pre : List PypeItTest) :
    ∀ (r : TestReport) (rest : List PypeItTest),
      (∀ t ∈ pre, t.runReturns = true) →
      ∃ r2 : TestReport,
        (runSetupTests r true (pre ++ rest)).tests =
          pre.map (fun t => (PypeItTest.run t).2) ++
            (runSetupTests r2 true rest).tests ∧
        (runSetupTests r true (pre ++ rest)).events =
          pre.flatMap (fun t =>
            [RunEvent.started t.descr, RunEvent.completed t.descr true]) ++
            (runSetupTests r2 true rest).events := by
  induction pre with
  | nil => intro r rest _; exact ⟨r, by simp, by simp⟩
  | cons t pre ih =>
    intro r rest h
    have hrt : t.runReturns = true := h t (by simp)
    obtain ⟨r2, h1, h2⟩ := ih (TestReport.test_completed
      (TestReport.test_started r) t.descr (some true)) rest
      (fun t' ht' => h t' (by simp [ht']))
    refine ⟨r2, ?_, ?_⟩
    · rw [List.cons_append, runSetup_cons_true, hrt]
      dsimp only
      rw [h1]
      simp
    · rw [List.cons_append, runSetup_cons_true, hrt]
      dsimp only
      rw [h2]
      simp

/-- Claim C1: in a chain whose tests are an all-passing prefix `pre`,
then a failing test `tf`, then a remainder `post`, the worker loop runs
and passes every test of `pre`, runs `tf` which is FAILED, leaves every
test of `post` completely untouched (its `run` is never invoked, so it
never reaches RUNNING), and emits exactly one skipped event per
remaining test — started/completed events stop at `tf`. -/
theorem c1_fail_fast (pre : List PypeItTest) (tf : PypeItTest)
    (post : List PypeItTest) (r : TestReport)
    (hpre : ∀ t ∈ pre, t.runReturns = true) (hf : tf.runReturns = false) :
    (runSetupTests r true (pre ++ tf :: post)).tests =
        pre.map (fun t => (PypeItTest.run t).2) ++ (PypeItTest.run tf).2 :: post ∧
    (∀ t ∈ pre, ((PypeItTest.run t).2).passed = some true) ∧
    ((PypeItTest.run tf).2).passed = some false ∧
    (runSetupTests r true (pre ++ tf :: post)).events =
        pre.flatMap (fun t =>
          [RunEvent.started t.descr, RunEvent.completed t.descr true]) ++
          RunEvent.started tf.descr :: RunEvent.completed tf.descr false ::
            post.map (fun t => RunEvent.skipped t.descr) := by
  obtain ⟨r2, h1, h2⟩ := runSetup_prefix pre r (tf :: post) hpre
  have hcons := runSetup_cons_true r2 tf post
  rw [hf] at hcons
  obtain ⟨k1, _, k3, _, _, _, _⟩ := runSetup_false_parts post
    (TestReport.test_completed (TestReport.test_started r2) tf.descr
      (some false))
  refine ⟨?_, ?_, ?_, ?_⟩
  · rw [h1, hcons]
    dsimp only
    rw [k1]
  · intro t ht
    simp [PypeItTest.run, hpre t ht]
  · simp [PypeItTest.run, hf]
  · rw [h2, hcons]
    dsimp only
    rw [k3]

/-- Witness for C1 on the concrete chain [pass, fail, would-pass]. -/
theorem c1_fail_fast_witness :
    (∀ t ∈ [tPass1], t.runReturns = true) ∧ tFail1.runReturns = false ∧
    ((runSetupTests initialReport true ([tPass1] ++ tFail1 :: [tAfter1])).tests =
        [tPass1].map (fun t => (PypeItTest.run t).2) ++
          (PypeItTest.run tFail1).2 :: [tAfter1] ∧
      (∀ t ∈ [tPass1], ((PypeItTest.run t).2).passed = some true) ∧
      ((PypeItTest.run tFail1).2).passed = some false ∧
      (runSetupTests initialReport true ([tPass1] ++ tFail1 :: [tAfter1])).events =
        [tPass1].flatMap (fun t =>
          [RunEvent.started t.descr, RunEvent.completed t.descr true]) ++
          RunEvent.started tFail1.descr :: RunEvent.completed tFail1.descr false ::
            [tAfter1].map (fun t => RunEvent.skipped t.descr)) :=
  ⟨by decide, by decide,
   c1_fail_fast [tPass1] tFail1 [tAfter1] initialReport (by decide) (by decide)⟩

/-- When every test of a setup passes, the loop maps each test through
`run`. -/
theorem runSetup_allpass_tests (ts : List PypeItTest) (r : TestReport)
    (h : ∀ t ∈ ts, t.runReturns = true) :
    (runSetupTests r true ts).tests = ts.map (fun t => (PypeItTest.run t).2) := by
  obtain ⟨r2, h1, _⟩ := runSetup_prefix ts r [] h
  simpa [runSetupTests] using h1

/-- After a run in which every test passed, every post-run test object
carries populated start and end timestamps. -/
theorem runAll_allpass_timestamps (ss : List TestSetup) :
    ∀ r : TestReport, (∀ s ∈ ss, ∀ t ∈ s.tests, t.runReturns = true) →
      ∀ s2 ∈ (runAllSetups r ss).2, ∀ t2 ∈ s2.tests,
        t2.start_time.isSome = true ∧ t2.end_time.isSome = true := by
  induction ss with
  | nil => intro r _ s2 hs2; simp [runAllSetups] at hs2
  | cons s ss ih =>
    intro r h s2 hs2
    simp only [runAllSetups, runTestSetup] at hs2
    rcases List.mem_cons.mp hs2 with rfl | hs2
    · intro t2 ht2
      simp only at ht2
      rw [runSetup_allpass_tests s.tests r (h s (by simp))] at ht2
      obtain ⟨t, _, rfl⟩ := List.mem_map.mp ht2
      simp [PypeItTest.run]
    · exact ih (runSetupTests r true s.tests).report
        (fun s' hs' => h s' (by simp [hs'])) s2 hs2

/-- A test whose timestamps are both populated contributes a defined
duration term. -/
theorem testDurTerm_isSome (t : PypeItTest)
    (h : t.start_time.isSome = true ∧ t.end_time.isSome = true) :
    (testDurTerm t).isSome = true := by
  obtain ⟨hs, he⟩ := h
  obtain ⟨s, hs'⟩ := Option.isSome_iff_exists.mp hs
  obtain ⟨e, he'⟩ := Option.isSome_iff_exists.mp he
  simp [testDurTerm, hs', he']

/-- The duration sum is defined when every test has both timestamps. -/
theorem sumDurations_isSome (ts : List PypeItTest)
    (h : ∀ t ∈ ts, t.start_time.isSome = true ∧ t.end_time.isSome = true) :
    (sumDurations ts).isSome = true := by
  induction ts with
  | nil => simp [sumDurations]
  | cons t ts ih =>
    have h1 := testDurTerm_isSome t (h t (by simp))
    have h2 := ih (fun t' ht' => h t' (by simp [ht']))
    obtain ⟨d, hd⟩ := Option.isSome_iff_exists.mp h1
    obtain ⟨rest, hrest⟩ := Option.isSome_iff_exists.mp h2
    simp [sumDurations, hd, hrest]

/-- The duration sum fails as soon as any test is missing a timestamp
(the `TypeError` of `None` subtraction). -/
theorem sumDurations_none (ts : List PypeItTest)
    (h : ∃ t ∈ ts, t.start_time = none ∨ t.end_time = none) :
    sumDurations ts = none := by
  induction ts with
  | nil => simp at h
  | cons t ts ih =>
    obtain ⟨t', ht', hnone⟩ := h
    rcases List.mem_cons.mp ht' with rfl | ht'
    · have : testDurTerm t' = none := by
        rcases hnone with h' | h' <;> simp [testDurTerm, h']
      simp [sumDurations, this]
    · have : sumDurations ts = none := ih ⟨t', ht', hnone⟩
      cases hterm : testDurTerm t <;> simp [sumDurations, hterm, this]

/-- The per-setup duration list is defined when every setup's sum is. -/
theorem setupDurations_isSome (ss : List TestSetup)
    (h : ∀ s ∈ ss, (sumDurations s.tests).isSome = true) :
    (setupDurations ss).isSome = true := by
  induction ss with
  | nil => simp [setupDurations]
  | cons s ss ih =>
    obtain ⟨d, hd⟩ := Option.isSome_iff_exists.mp (h s (by simp))
    obtain ⟨rest, hrest⟩ := Option.isSome_iff_exists.mp
      (ih (fun s' hs' => h s' (by simp [hs'])))
    simp [setupDurations, hd, hrest]

/-- The per-setup duration list fails as soon as any setup's sum does. -/
theorem setupDurations_none (ss : List TestSetup)
    (h : ∃ s ∈ ss, sumDurations s.tests = none) :
    setupDurations ss = none := by
  induction ss with
  | nil => simp at h
  | cons s ss ih =>
    obtain ⟨s', hs', hnone⟩ := h
    rcases List.mem_cons.mp hs' with rfl | hs'
    · simp [setupDurations, hnone]
    · have : setupDurations ss = none := ih ⟨s', hs', hnone⟩
      cases hsum : sumDurations s.tests <;> simp [setupDurations, hsum, this]

/-- Claim C10: `update_priorities` is total only under the precondition
that every test actually ran.  (1) If any test of any setup has a `None`
timestamp, the duration summation raises (`none`).  (2) If every test of
every setup has both timestamps, `update_priorities` succeeds.  (3) The
precondition holds at the sole call site: the call is guarded by
`num_passed == num_tests`, which over a drained run forces every test to
have run and populated its timestamps, so the guarded call succeeds. -/
theorem c10_update_totality :
    (∀ (tpl : TestPriorityList) (ss : List TestSetup),
      (∃ s ∈ ss, ∃ t ∈ s.tests, t.start_time = none ∨ t.end_time = none) →
      TestPriorityList.update_priorities tpl ss = none) ∧
    (∀ (tpl : TestPriorityList) (ss : List TestSetup),
      (∀ s ∈ ss, ∀ t ∈ s.tests,
        t.start_time.isSome = true ∧ t.end_time.isSome = true) →
      (TestPriorityList.update_priorities tpl ss).isSome = true) ∧
    (∀ (tpl : TestPriorityList) (ss : List TestSetup),
      (runAllSetups initialReport ss).1.num_passed =
        (runAllSetups initialReport ss).1.num_tests →
      (TestPriorityList.update_priorities tpl
        (runAllSetups initialReport ss).2).isSome = true) := by
  have hnone : ∀ (tpl : TestPriorityList) (ss : List TestSetup),
      (∃ s ∈ ss, ∃ t ∈ s.tests, t.start_time = none ∨ t.end_time = none) →
      TestPriorityList.update_priorities tpl ss = none := by
    intro tpl ss h
    obtain ⟨s, hs, t, ht, hnone⟩ := h
    have : setupDurations ss = none :=
      setupDurations_none ss ⟨s, hs, sumDurations_none s.tests ⟨t, ht, hnone⟩⟩
    simp [TestPriorityList.update_priorities, this]
  have hsome : ∀ (tpl : TestPriorityList) (ss : List TestSetup),
      (∀ s ∈ ss, ∀ t ∈ s.tests,
        t.start_time.isSome = true ∧ t.end_time.isSome = true) →
      (TestPriorityList.update_priorities tpl ss).isSome = true := by
    intro tpl ss h
    have := setupDurations_isSome ss
      (fun s hs => sumDurations_isSome s.tests (fun t ht => h s hs t ht))
    obtain ⟨ds, hds⟩ := Option.isSome_iff_exists.mp this
    simp [TestPriorityList.update_priorities, hds]
  refine ⟨hnone, hsome, ?_⟩
  intro tpl ss hguard
  apply hsome
  exact runAll_allpass_timestamps ss initialReport
    ((runAll_passed_iff ss).mp hguard)

/-- Witness for C10: a never-ran test makes the recompute raise; a fully
timed setup succeeds; and a drained all-passing run satisfies the guard
and the guarded recompute succeeds. -/
theorem c10_update_totality_witness :
    (∃ s ∈ [setupNeverRan], ∃ t ∈ s.tests,
        t.start_time = none ∨ t.end_time = none) ∧
    TestPriorityList.update_priorities tplEmpty [setupNeverRan] = none ∧
    (TestPriorityList.update_priorities tplEmpty [timedSetup "A" 0 10]).isSome = true ∧
    ((runAllSetups initialReport [setupGreen]).1.num_passed =
      (runAllSetups initialReport [setupGreen]).1.num_tests) ∧
    (TestPriorityList.update_priorities tplEmpty
      (runAllSetups initialReport [setupGreen]).2).isSome = true :=
  ⟨by decide,
   c10_update_totality.1 tplEmpty [setupNeverRan] (by decide),
   c10_update_totality.2.1 tplEmpty [timedSetup "A" 0 10] (by decide),
   by decide,
   c10_update_totality.2.2 tplEmpty [setupGreen] (by decide)⟩

/-- Claim C8: when the accumulated missing-file diagnostics are
non-empty, `main` raises before populating the queue and before starting
any worker: nothing is queued, the reporter is untouched (so no test was
ever started) and the abort message is present. -/
theorem c8_missing_files_abort (setups : List TestSetup)
    (h : collectMissing setups ≠ []) :
    (main_run setups).aborted.isSome = true ∧
    (main_run setups).queued = [] ∧
    (main_run setups).report = initialReport ∧
    (main_run setups).report.num_tests = 0 := by
  have hlen : (collectMissing setups).length > 0 :=
    List.length_pos.mpr h
  simp [main_run, hlen, initialReport]

/-- Witness for C8 with one broken setup among the built ones. -/
theorem c8_missing_files_abort_witness :
    collectMissing [setupMissing, setupGreen] ≠ [] ∧
    ((main_run [setupMissing, setupGreen]).aborted.isSome = true ∧
      (main_run [setupMissing, setupGreen]).queued = [] ∧
      (main_run [setupMissing, setupGreen]).report = initialReport ∧
      (main_run [setupMissing, setupGreen]).report.num_tests = 0) :=
  ⟨by decide, c8_missing_files_abort [setupMissing, setupGreen] (by decide)⟩

/-- Claim C2 counterexample: with a first chain whose only task's
`run()` raises and a healthy second chain behind it, the worker emits
only the started event, records no FAILED result (`num_failed = 0`,
`num_active` stuck at 1), never calls `task_done`, and the thread is
terminated by the uncaught exception — the second chain is never
touched.  `thread_target` catches only `queue.Empty`. -/
theorem c2_worker_uncaught_cex :
    (thread_target_exc [rSetupRaises, rSetupAfter]).uncaught = true ∧
    (thread_target_exc [rSetupRaises, rSetupAfter]).task_done_count = 0 ∧
    (thread_target_exc [rSetupRaises, rSetupAfter]).events =
      [RunEvent.started "t1"] ∧
    (replayEvents initialReport
      (thread_target_exc [rSetupRaises, rSetupAfter]).events).num_failed = 0 ∧
    (replayEvents initialReport
      (thread_target_exc [rSetupRaises, rSetupAfter]).events).num_active = 1 := by
  decide

/-- Under no flag, the setup loop completes normally whenever no test's
`run()` raises (regardless of returned pass/fail outcomes). -/
theorem runSetupExc_no_raise (ts : List RTest) :
    ∀ p : Bool, (∀ t ∈ ts, t.runOutcome ≠ none) →
      (runSetupExc p ts).2.isSome = true := by
  induction ts with
  | nil => intro p _; simp [runSetupExc]
  | cons t ts ih =>
    intro p h
    cases p with
    | false =>
      simp only [runSetupExc, Bool.false_eq_true, if_false]
      exact ih false (fun t' ht' => h t' (by simp [ht']))
    | true =>
      cases hro : t.runOutcome with
      | none => exact absurd hro (h t (by simp))
      | some res =>
        simp only [runSetupExc, if_pos rfl, hro]
        exact ih res (fun t' ht' => h t' (by simp [ht']))

/-- Claim C2 amended: `thread_target` installs no handler around
`test.run()`, so an exception escaping `run()` terminates the worker
without acknowledging the chain.  When every `run()` returns an outcome
instead of raising (failure normalization being the task contract's own
responsibility), the worker survives every chain — including failing
ones — and acknowledges each popped chain with `task_done` exactly
once. -/
theorem c2_worker_no_raise (ss : List RSetup)
    (h : ∀ s ∈ ss, ∀ t ∈ s.tests, t.runOutcome ≠ none) :
    (thread_target_exc ss).uncaught = false ∧
    (thread_target_exc ss).task_done_count = ss.length := by
  induction ss with
  | nil => simp [thread_target_exc]
  | cons s ss ih =>
    have hs := runSetupExc_no_raise s.tests true
      (fun t ht => h s (by simp) t ht)
    obtain ⟨b, hb⟩ := Option.isSome_iff_exists.mp hs
    obtain ⟨h1, h2⟩ := ih (fun s' hs' t ht => h s' (by simp [hs']) t ht)
    simp [thread_target_exc, hb, h1, h2]

/-- Witness for the amended C2 theorem: a failing-but-not-raising chain
followed by a passing chain are both acknowledged and the worker
survives. -/
theorem c2_worker_no_raise_witness :
    (∀ s ∈ [rSetupFails, rSetupAfter], ∀ t ∈ s.tests, t.runOutcome ≠ none) ∧
    ((thread_target_exc [rSetupFails, rSetupAfter]).uncaught = false ∧
      (thread_target_exc [rSetupFails, rSetupAfter]).task_done_count =
        [rSetupFails, rSetupAfter].length) :=
  ⟨by decide, c2_worker_no_raise [rSetupFails, rSetupAfter] (by decide)⟩
